import Mathlib

/-
  Verification of the ngmix Gaussian-mixture fitting library.

  Shallow embedding of the Python sources (ngmix/gmix.py, ngmix/jacobian.py,
  ngmix/em.py, ngmix/fitting.py) over the real numbers: float64 values are
  modelled as elements of ℝ, raised exceptions as Option/Except error values,
  and in-place mutation as explicit state passing.  External capabilities
  (the scipy least-squares solver, the numpy linear algebra, the compiled _gmix
  kernel, the fastmath exponential table) are modelled as parameters of the
  definitions that consume them, so every theorem quantifies over their
  behaviour.
-/

/-- The GMixRangeError exception from ngmix/gexceptions.py: a numerically
invalid mixture state (non-positive-definite second-moment matrix). -/
inductive RangeErr
  | rangeError
  deriving DecidableEq

/-- The GMixFatalError exception: invalid construction arguments. -/
inductive FatalErr
  | fatal
  deriving DecidableEq

/-- One 2D Gaussian component: the `_gauss2d` numba struct of gmix.py with
fields p, row, col, irr, irc, icc, det, drr, drc, dcc, norm, pnorm. -/
structure Gauss2D where
  p : ℝ
  row : ℝ
  col : ℝ
  irr : ℝ
  irc : ℝ
  icc : ℝ
  det : ℝ
  drr : ℝ
  drc : ℝ
  dcc : ℝ
  norm : ℝ
  pnorm : ℝ

/-- A zeroed component: `GMix.reset` allocates `zeros(ngauss, dtype=_gauss2d_dtype)`. -/
def zeroGauss : Gauss2D :=
  { p := 0, row := 0, col := 0, irr := 0, irc := 0, icc := 0, det := 0,
    drr := 0, drc := 0, dcc := 0, norm := 0, pnorm := 0 }

/-- The six parameters handed to `_gauss2d_set` for one component. -/
structure GaussPars where
  p : ℝ
  row : ℝ
  col : ℝ
  irr : ℝ
  irc : ℝ
  icc : ℝ

/-- Determinant `irr*icc - irc*irc` that `_gauss2d_set` computes from its inputs. -/
def GaussPars.det (gp : GaussPars) : ℝ := gp.irr * gp.icc - gp.irc * gp.irc

/-- The component record that a successful `_gauss2d_set` writes: all six
inputs, the determinant, the inverse moments `irr*idet, irc*idet, icc*idet`
with `idet = 1/det`, `norm = 1/(2*pi*sqrt(det))` and `pnorm = p*norm`. -/
noncomputable def mkGauss (gp : GaussPars) : Gauss2D :=
  let det := gp.irr * gp.icc - gp.irc * gp.irc
  let idet := 1 / det
  let norm := 1 / (2 * Real.pi * Real.sqrt det)
  { p := gp.p, row := gp.row, col := gp.col,
    irr := gp.irr, irc := gp.irc, icc := gp.icc,
    det := det, drr := gp.irr * idet, drc := gp.irc * idet, dcc := gp.icc * idet,
    norm := norm, pnorm := gp.p * norm }

/-- Embedding of `_gauss2d_set(self, i, p, row, col, irr, irc, icc)` from gmix.py.

The source computes `det = irr*icc - irc*irc` and raises GMixRangeError when
`det <= 0.0` BEFORE any assignment, so the mixture state is returned unchanged
alongside the error; otherwise component `i` is overwritten.  The pair returns
(raised exception, mixture state after the call). -/
noncomputable def gauss2dSet (gmix : List Gauss2D) (i : ℕ) (gp : GaussPars) :
    Option RangeErr × List Gauss2D :=
  let det := gp.irr * gp.icc - gp.irc * gp.irc
  if det ≤ 0 then (some RangeErr.rangeError, gmix)
  else (none, gmix.set i (mkGauss gp))

/-- Sequential application of `_gauss2d_set` at indices start, start+1, ...,
as performed by the loops of `_fill_full` and `_convolve_fill`.  A raised
range error aborts the loop with the state reached so far (earlier components
already overwritten, later ones untouched). -/
noncomputable def gauss2dSetLoop (gmix : List Gauss2D) (items : List GaussPars)
    (start : ℕ) : Option RangeErr × List Gauss2D :=
  match items with
  | [] => (none, gmix)
  | gp :: rest =>
    match gauss2dSet gmix start gp with
    | (some e, g) => (some e, g)
    | (none, g) => gauss2dSetLoop g rest (start + 1)

/-- Split a flat `[p1,row1,col1,irr1,irc1,icc1, p2,...]` parameter array into
per-component six-tuples, as the `beg=i*6` indexing of `_fill_full` reads it. -/
def chunk6 : List ℝ → List GaussPars
  | p :: r :: c :: a :: b :: d :: rest =>
    { p := p, row := r, col := c, irr := a, irc := b, icc := d } :: chunk6 rest
  | _ => []

/-- Embedding of `GMix(pars=...)` from gmix.py: require `len(pars) % 6 == 0` (fatal error
otherwise), zero `ngauss = len(pars)/6` components, then `_fill_full`. -/
noncomputable def gmixOfPars (pars : List ℝ) :
    Except FatalErr (Option RangeErr × List Gauss2D) :=
  if pars.length % 6 ≠ 0 then Except.error FatalErr.fatal
  else Except.ok
    (gauss2dSetLoop (List.replicate (pars.length / 6) zeroGauss) (chunk6 pars) 0)

/-- Total flux `sum(p)` accumulated by `_get_cen` (and `get_psum`). -/
noncomputable def gmixPsum (g : List Gauss2D) : ℝ := (g.map (fun x => x.p)).sum

/-- Flux-weighted row sum `sum(p*row)` accumulated by `_get_cen`. -/
noncomputable def gmixRowsum (g : List Gauss2D) : ℝ :=
  (g.map (fun x => x.p * x.row)).sum

/-- Flux-weighted col sum `sum(p*col)` accumulated by `_get_cen`. -/
noncomputable def gmixColsum (g : List Gauss2D) : ℝ :=
  (g.map (fun x => x.p * x.col)).sum

/-- Embedding of `_get_cen(self)` from gmix.py: returns `(row/psum, col/psum, psum)`. -/
noncomputable def getCenFull (g : List Gauss2D) : ℝ × ℝ × ℝ :=
  (gmixRowsum g / gmixPsum g, gmixColsum g / gmixPsum g, gmixPsum g)

/-- Embedding of `GMix.get_cen`: the (row, col) part of `_get_cen`. -/
noncomputable def getCen (g : List Gauss2D) : ℝ × ℝ :=
  (gmixRowsum g / gmixPsum g, gmixColsum g / gmixPsum g)

/-- The six parameters `_convolve_fill` computes for the (iobj, ipsf) pair:
`p = p_obj*p_psf*(1/psf_psum)`, `row = row_obj + (row_psf - psf_rowcen)`,
`col` analogously, additive second moments. -/
noncomputable def convPars (o q : Gauss2D) (psfRowcen psfColcen psfIpsum : ℝ) :
    GaussPars :=
  { p := o.p * q.p * psfIpsum,
    row := o.row + (q.row - psfRowcen),
    col := o.col + (q.col - psfColcen),
    irr := o.irr + q.irr,
    irc := o.irc + q.irc,
    icc := o.icc + q.icc }

/-- The sequence of `_gauss2d_set` arguments produced by the double loop of `_convolve_fill` (`iobj` outer, `ipsf` inner, target index `iself` consecutive). -/
noncomputable def convolveParams (obj psf : List Gauss2D) : List GaussPars :=
  let psfRowcen := gmixRowsum psf / gmixPsum psf
  let psfColcen := gmixColsum psf / gmixPsum psf
  let psfIpsum := 1 / gmixPsum psf
  obj.flatMap fun o => psf.map fun q => convPars o q psfRowcen psfColcen psfIpsum

/-- Embedding of `_convolve_fill(self, obj_gmix, psf_gmix)` from gmix.py: fill the target
with one `_gauss2d_set` per (object, psf) pair. -/
noncomputable def convolveFill (target obj psf : List Gauss2D) :
    Option RangeErr × List Gauss2D :=
  gauss2dSetLoop target (convolveParams obj psf) 0

/-- Embedding of `GMix.convolve(psf)` from gmix.py: allocate a fresh zeroed mixture of
`len(self)*len(psf)` components and run `convolve_fill`; a range error raised
during the fill propagates (the partially filled fresh mixture is dropped). -/
noncomputable def convolve (obj psf : List Gauss2D) :
    Except RangeErr (List Gauss2D) :=
  match convolveFill (List.replicate (obj.length * psf.length) zeroGauss) obj psf with
  | (some e, _) => Except.error e
  | (none, g) => Except.ok g

/-
  Coordinate Jacobian (ngmix/jacobian.py).

  `Jacobian.__init__` stores the centre twice: as the instance attributes
  `self.row0`, `self.col0` AND inside the packed `_data` record (together with
  the four partials, `det = abs(dudrow*dvdcol - dudcol*dvdrow)` and
  `sdet = sqrt(det)`).  `get_cen` reads the instance attributes while
  `set_cen` writes only the `_data` fields.
-/

/-- The packed `_jacobian` record of jacobian.py. -/
structure JacobianData where
  row0 : ℝ
  col0 : ℝ
  dudrow : ℝ
  dudcol : ℝ
  dvdrow : ℝ
  dvdcol : ℝ
  det : ℝ
  sdet : ℝ

/-- A `Jacobian` object: the duplicated centre attributes plus `_data`. -/
structure PyJacobian where
  attrRow0 : ℝ
  attrCol0 : ℝ
  data : JacobianData

/-- Embedding of `Jacobian.__init__(row0, col0, dudrow, dudcol, dvdrow, dvdcol)`. -/
noncomputable def jacobianInit (row0 col0 dudrow dudcol dvdrow dvdcol : ℝ) :
    PyJacobian :=
  { attrRow0 := row0, attrCol0 := col0,
    data :=
      { row0 := row0, col0 := col0,
        dudrow := dudrow, dudcol := dudcol, dvdrow := dvdrow, dvdcol := dvdcol,
        det := |dudrow * dvdcol - dudcol * dvdrow|,
        sdet := Real.sqrt |dudrow * dvdcol - dudcol * dvdrow| } }

/-- Embedding of `Jacobian.get_cen`: returns `(self.row0, self.col0)` (the instance
attributes, not the `_data` fields). -/
def jacobianGetCen (j : PyJacobian) : ℝ × ℝ := (j.attrRow0, j.attrCol0)

/-- Embedding of `Jacobian.set_cen(row0, col0)`: assigns the record fields `row0` and `col0` of `self._data` only. -/
def jacobianSetCen (j : PyJacobian) (row0 col0 : ℝ) : PyJacobian :=
  { j with data := { j.data with row0 := row0, col0 := col0 } }

/-- Embedding of `Jacobian.get_det`: returns the `det` field of `self._data`. -/
def jacobianGetDet (j : PyJacobian) : ℝ := j.data.det

/-- Embedding of `Jacobian.get_scale`: returns the `sdet` field of `self._data`. -/
def jacobianGetScale (j : PyJacobian) : ℝ := j.data.sdet

/-
  Fast approximate exponential (gmix.py, the shared block inside
  `_render_fast3`, `_render_jacob_fast3`, `_loglike_fast3`,
  `_loglike_jacob_fast3`):

      ival = int64(x-0.5)
      f = x - ival
      index = ival-i0
      expval = expvals[index]
      fexp = (6+f*(6+f*(3+f)))*0.16666666
      expval *= fexp

  The numba `int64(...)` cast truncates toward zero (C semantics).  The i0
  passed at every call site is `_exp3_ivals[0]` where
  `_exp3_ivals, _exp3_lookup = fastmath.make_exp_lookup(-26, 0)`; the
  fastmath module is not part of the given sources.  Modelled from the spec:
  the lookup table spans integer exponents -26..0 with lower bound i0 = -26;
  the table itself is kept abstract as a function from index to value.
-/

/-- Truncation toward zero, the semantics of the `int64(...)` cast applied
to a float64 value. -/
noncomputable def truncZ (y : ℝ) : ℤ := if 0 ≤ y then ⌊y⌋ else ⌈y⌉

/-- Step `ival = int64(x-0.5)` of the fast-exponential block. -/
noncomputable def fast3Ival (x : ℝ) : ℤ := truncZ (x - 0.5)

/-- Step `f = x - ival` of the fast-exponential block. -/
noncomputable def fast3F (x : ℝ) : ℝ := x - (fast3Ival x : ℝ)

/-- Step `fexp = (6+f*(6+f*(3+f)))*0.16666666` (the literal 8-digit constant from
the source, not exactly 1/6). -/
noncomputable def fast3Fexp (x : ℝ) : ℝ :=
  (6 + fast3F x * (6 + fast3F x * (3 + fast3F x))) * 0.16666666

/-- The complete fast-exponential block: `expvals[ival-i0] * fexp`. -/
noncomputable def fastExp3 (expvals : ℤ → ℝ) (i0 : ℤ) (x : ℝ) : ℝ :=
  expvals (fast3Ival x - i0) * fast3Fexp x

/-- Modelled from the spec: lower bound of the fastmath exponential table,
`_exp3_ivals[0]` for `make_exp_lookup(-26, 0)` (fastmath is not under src/). -/
def exp3I0 : ℤ := -26

/-
  FitterBase.calc_lnprob (ngmix/fitting.py).

  The body runs, inside one `try`, the steps: `_get_priors(pars)`, then
  `_fill_gmix_all(pars)` (model fill plus optional PSF convolve-fill per
  observation), then one likelihood evaluation per observation per band
  (the `nu`, `margsky` and default branches are all such calls), summing the
  per-observation (loglike, s2n_numer, s2n_denom) triples and finally adding
  the prior term.  Any GMixRangeError raised by any step is caught and
  replaced by the sentinel triple (LOWVAL, 0.0, BIGVAL).  The three step
  groups are modelled as Except-valued inputs so the theorem quantifies over
  what the priors / fill / likelihood kernels do.
-/

/-- Modelled from the spec: the fixed very-low sentinel log-probability
`LOWVAL` lives in ngmix/priors.py which is not under src/; the claims use it
only as an identified constant, the numeric value follows the upstream
convention. -/
noncomputable def LOWVAL : ℝ := -(9999.0e47)

/-- Modelled from the spec: the very-large S/N-denominator sentinel `BIGVAL`
from ngmix/priors.py (not under src/). -/
noncomputable def BIGVAL : ℝ := 9999.0e47

/-- The band/observation loop of calc_lnprob: accumulate each observation
(loglike, s2n_numer, s2n_denom) triple onto the running sums, propagating the
first raised range error. -/
noncomputable def lnlikeLoop (acc : ℝ × ℝ × ℝ) :
    List (Except RangeErr (ℝ × ℝ × ℝ)) → Except RangeErr (ℝ × ℝ × ℝ)
  | [] => Except.ok acc
  | r :: rest =>
    match r with
    | Except.error e => Except.error e
    | Except.ok t => lnlikeLoop (acc.1 + t.1, acc.2.1 + t.2.1, acc.2.2 + t.2.2) rest

/-- The `try:` body of calc_lnprob: priors, then mixture fill, then the
likelihood loop, then `ln_prob += ln_priors`. -/
noncomputable def calcLnprobTry (priorsR : Except RangeErr ℝ)
    (fillR : Except RangeErr Unit)
    (loglikes : List (Except RangeErr (ℝ × ℝ × ℝ))) :
    Except RangeErr (ℝ × ℝ × ℝ) := do
  let lnPriors ← priorsR
  let _ ← fillR
  let acc ← lnlikeLoop ((0 : ℝ), (0 : ℝ), (0 : ℝ)) loglikes
  pure (acc.1 + lnPriors, acc.2.1, acc.2.2)

/-- Embedding of `FitterBase.calc_lnprob` (viewed through `get_s2nsums=True`): the try
body with the `except GMixRangeError` handler that substitutes
`(LOWVAL, 0.0, BIGVAL)`.  Total by construction: no exception escapes. -/
noncomputable def calcLnprob (priorsR : Except RangeErr ℝ)
    (fillR : Except RangeErr Unit)
    (loglikes : List (Except RangeErr (ℝ × ℝ × ℝ))) : ℝ × ℝ × ℝ :=
  match calcLnprobTry priorsR fillR loglikes with
  | Except.ok t => t
  | Except.error _ => (LOWVAL, 0, BIGVAL)

/-
  Least-squares driver run_leastsq (ngmix/fitting.py).

  The scipy leastsq call, the residual function and the numpy eigen
  decomposition are external; they are modelled as inputs: `outcome` is what
  the `leastsq(...)` call did (returned a tuple, raised ValueError, raised
  ZeroDivisionError), `fdiffAtPars` is the value of `func(pars)` used to
  rescale the covariance, and `eig` is what numpy.linalg.eig returned on the
  scaled covariance (`none` = LinAlgError).
-/

/-- Sentinel parameter value `PDEF` of fitting.py. -/
noncomputable def PDEF : ℝ := -9.999e9

/-- Sentinel covariance/error value `CDEF` of fitting.py. -/
noncomputable def CDEF : ℝ := 9.999e9

/-- Flag bit `LM_SINGULAR_MATRIX = 2**4`. -/
def LM_SINGULAR_MATRIX : ℕ := 2 ^ 4

/-- Flag bit `LM_NEG_COV_EIG = 2**5`. -/
def LM_NEG_COV_EIG : ℕ := 2 ^ 5

/-- Flag bit `LM_NEG_COV_DIAG = 2**6`. -/
def LM_NEG_COV_DIAG : ℕ := 2 ^ 6

/-- Flag bit `EIG_NOTFINITE = 2**7`. -/
def EIG_NOTFINITE : ℕ := 2 ^ 7

/-- Flag bit `LM_FUNC_NOTFINITE = 2**8`. -/
def LM_FUNC_NOTFINITE : ℕ := 2 ^ 8

/-- Flag bit `LM_DIV_ZERO = 2**9`. -/
def LM_DIV_ZERO : ℕ := 2 ^ 9

/-- Does `hay` start with `needle` (character lists)? -/
def listStartsWith : List Char → List Char → Bool
  | _, [] => true
  | [], _ :: _ => false
  | c :: cs, d :: ds => c == d && listStartsWith cs ds

/-- Substring test, Python `needle in hay`. -/
def pyStrIn (needle hay : String) : Bool :=
  (List.range (hay.data.length + 1)).any fun i =>
    listStartsWith (hay.data.drop i) needle.data

/-- Matrices as lists of rows. -/
abbrev Mat := List (List ℝ)

/-- Function `numpy.diag` of a matrix: its diagonal as a vector. -/
def diagVec (m : Mat) : List ℝ :=
  m.mapIdx fun i row => row.getD i 0

/-- Function `diag(diag(m))`: the matrix with only the diagonal of `m` kept. -/
def diagMatOf (m : Mat) : Mat :=
  (List.range m.length).map fun i =>
    (List.range m.length).map fun j => if i = j then (m.getD i []).getD j 0 else 0

/-- Scalar multiple of a matrix. -/
noncomputable def matScale (m : Mat) (s : ℝ) : Mat :=
  m.map fun row => row.map fun x => x * s

/-- The matrix filled with a constant. -/
noncomputable def constMat (n : ℕ) (c : ℝ) : Mat :=
  List.replicate n (List.replicate n c)

/-- Embedding of `_get_def_stuff(npars)`: PDEF-filled parameters, CDEF-filled covariance
and errors. -/
noncomputable def getDefStuff (npars : ℕ) : List ℝ × Mat × List ℝ :=
  (List.replicate npars PDEF, constMat npars CDEF, List.replicate npars CDEF)

/-- Embedding of `_test_cov(pcov)`: add `LM_NEG_COV_EIG` when an eigenvalue is negative and
`LM_NEG_COV_DIAG` when a diagonal entry is negative; a LinAlgError from the
eigen decomposition (modelled as `eig = none`) gives `EIG_NOTFINITE`. -/
noncomputable def testCov (pcov : Mat) (eig : Option (List ℝ)) : ℕ :=
  match eig with
  | none => EIG_NOTFINITE
  | some es =>
    (if es.any fun e => decide (e < 0) then LM_NEG_COV_EIG else 0) +
    (if (diagVec pcov).any fun e => decide (e < 0) then LM_NEG_COV_DIAG else 0)

/-- What the external `scipy.optimize.leastsq` call did. -/
inductive LMOutcome
  | result (pars : List ℝ) (pcov0 : Option Mat) (nfev : ℕ) (errmsg : String)
      (ier : ℕ)
  | valueErr (msg : String)
  | zeroDivErr

/-- An exception escaping run_leastsq (a re-raised ValueError). -/
inductive PyErr
  | valueError (msg : String)

/-- The result dict assembled by run_leastsq.  `ier` and `parsErr` are
`Option` because the exception branches of the source never store the
`ier` / `pars_err` keys. -/
structure LMResult where
  flags : ℕ
  nfev : ℤ
  ier : Option ℕ
  errmsg : String
  pars : List ℝ
  parsErr : Option (List ℝ)
  parsCov0 : Option Mat
  parsCov : Mat

/-- The result built by the `except ValueError` handler when the message
contains NaNs or infs. -/
noncomputable def lmNotFiniteResult (npars : ℕ) : LMResult :=
  { flags := LM_FUNC_NOTFINITE, nfev := -1, ier := none, errmsg := "not finite",
    pars := (getDefStuff npars).1, parsErr := none,
    parsCov0 := some (getDefStuff npars).2.1, parsCov := (getDefStuff npars).2.1 }

/-- The result built by the `except ZeroDivisionError` handler. -/
noncomputable def lmZeroDivResult (npars : ℕ) : LMResult :=
  { flags := LM_DIV_ZERO, nfev := -1, ier := none, errmsg := "zero division",
    pars := (getDefStuff npars).1, parsErr := none,
    parsCov0 := some (getDefStuff npars).2.1, parsCov := (getDefStuff npars).2.1 }

/-- Embedding of `run_leastsq(func, guess, dof, n_prior_pars, **keys)` from fitting.py. -/
noncomputable def runLeastsq (npars : ℕ) (outcome : LMOutcome)
    (fdiffAtPars : List ℝ) (dof : ℝ) (nPriorPars : ℕ) (eig : Option (List ℝ)) :
    Except PyErr LMResult :=
  match outcome with
  | LMOutcome.result pars0 pcov0 nfev errmsg ier =>
    if ier = 0 then
      -- `raise ValueError(errmsg)`, caught by the ValueError handler below
      if pyStrIn "NaNs" errmsg || pyStrIn "infs" errmsg then
        Except.ok (lmNotFiniteResult npars)
      else Except.error (PyErr.valueError errmsg)
    else if 4 < ier then
      Except.ok
        { flags := 2 ^ (ier - 5), nfev := nfev, ier := some ier, errmsg := errmsg,
          pars := (getDefStuff npars).1, parsErr := some (getDefStuff npars).2.2,
          parsCov0 := pcov0, parsCov := (getDefStuff npars).2.1 }
    else
      match pcov0 with
      | none =>
        Except.ok
          { flags := LM_SINGULAR_MATRIX, nfev := nfev, ier := some ier,
            errmsg := "singular covariance",
            pars := pars0, parsErr := some (getDefStuff npars).2.2,
            parsCov0 := none, parsCov := (getDefStuff npars).2.1 }
      | some pcovRaw =>
        let sSq := ((fdiffAtPars.drop nPriorPars).map fun t => t ^ 2).sum / dof
        let pcov := matScale pcovRaw sSq
        let cflags := testCov pcov eig
        if cflags ≠ 0 then
          Except.ok
            { flags := cflags, nfev := nfev, ier := some ier,
              errmsg := "bad covariance matrix",
              pars := pars0, parsErr := some (getDefStuff npars).2.2,
              parsCov0 := some pcovRaw, parsCov := pcov }
        else
          Except.ok
            { flags := 0, nfev := nfev, ier := some ier, errmsg := errmsg,
              pars := pars0, parsErr := some ((diagVec pcov).map Real.sqrt),
              parsCov0 := some pcovRaw, parsCov := pcov }
  | LMOutcome.valueErr msg =>
    if pyStrIn "NaNs" msg || pyStrIn "infs" msg then
      Except.ok (lmNotFiniteResult npars)
    else Except.error (PyErr.valueError msg)
  | LMOutcome.zeroDivErr => Except.ok (lmZeroDivResult npars)

/-
  MaxSimple covariance estimation (fitting.py, get_cov / calc_cov).

  The finite-difference Hessian `covmatrix.calc_hess(...)` and the numpy matrix
  inversion are external: the Hessian is an input and the inverter is a
  parameter `inv : Mat -> Option Mat` with `none` = LinAlgError.  The body of
  `get_cov` after the Hessian is computed reads:

      try:
          cov = -linalg.inv(hess)
      except LinAlgError:
          # pull out a diagonal version of the hessian
          # this might still fail
          hdiag=diag(diag(hess))
          cov = -linalg.inv(hess)
      return cov

  Note the fallback builds `hdiag` but inverts `hess` again.
-/

/-- Entry-wise negation of a matrix. -/
noncomputable def matNeg (m : Mat) : Mat := m.map fun row => row.map fun x => -x

/-- Embedding of `MaxSimple.get_cov` from the Hessian down: `none` means a LinAlgError
propagated out of the method. -/
noncomputable def getCov (inv : Mat → Option Mat) (hess : Mat) : Option Mat :=
  match inv hess with
  | some c => some (matNeg c)
  | none =>
    -- `hdiag = diag(diag(hess))` is computed but the source inverts `hess`
    let _hdiag := diagMatOf hess
    match inv hess with
    | some c => some (matNeg c)
    | none => none

/-- Embedding of `MaxSimple.calc_cov(h, m)`: catch the LinAlgError from get_cov, require
every diagonal variance positive (and its square root finite, automatic over
ℝ), otherwise discard the covariance and set EIG_NOTFINITE.  Returns the new
flags and, when accepted, the (pars_cov, pars_err) pair added to the result. -/
noncomputable def calcCov (inv : Mat → Option Mat) (hess : Mat) (flags0 : ℕ) :
    ℕ × Option (Mat × List ℝ) :=
  match getCov inv hess with
  | none => (flags0 ||| EIG_NOTFINITE, none)
  | some cov =>
    let cdiag := diagVec cov
    if cdiag.any fun x => decide (x ≤ 0) then (flags0 ||| EIG_NOTFINITE, none)
    else (flags0, some (cov, cdiag.map Real.sqrt))

/-
  GMixEM.run_em (ngmix/em.py).

  The per-pixel EM iteration is delegated to the external compiled kernel
  `_gmix.em_run`, modelled as an input `emOutcome`: either the returned
  `(numiter, fdiff)` pair or a raised GMixRangeError.
-/

/-- Constant `EM_RANGE_ERROR = 2**0`. -/
def EM_RANGE_ERROR : ℕ := 2 ^ 0

/-- Constant `EM_MAXITER = 2**1`. -/
def EM_MAXITER : ℕ := 2 ^ 1

/-- The result dict of run_em; `numiter`/`fdiff` are `Option` because the
range-error branch stores neither key. -/
structure EMResult where
  flags : ℕ
  numiter : Option ℕ
  fdiff : Option ℝ

/-- Embedding of `GMixEM.run_em`: flag assembly around the kernel call. -/
def runEm (emOutcome : Except RangeErr (ℕ × ℝ)) (maxiter : ℕ) : EMResult :=
  match emOutcome with
  | Except.ok (numiter, fdiff) =>
    { flags := if numiter ≥ maxiter then EM_MAXITER else 0,
      numiter := some numiter, fdiff := some fdiff }
  | Except.error _ => { flags := EM_RANGE_ERROR, numiter := none, fdiff := none }

/-
  Metropolis-Hastings sampler MH (ngmix/fitting.py).

  Randomness is determinised: the proposal of the stepper at loop index i is
  `stepper i oldpars` and the uniform draw consumed at loop index i is
  `uniforms i`.  Float64 infinities are outside the real-number model, so the
  `isfinite(newlike)` conjunct of the acceptance test is dropped (every ℝ
  value is finite); the claims settled here do not depend on it.
-/

/-- The mutable attributes of an MH instance. -/
structure MHState where
  trials : List (List ℝ)
  loglike : List ℝ
  accepted : List ℕ
  current : ℕ
  oldpars : List ℝ
  oldlike : ℝ
  arate : ℝ

/-- An MH instance before any run: none of the run attributes exist yet. -/
def mhEmpty : MHState :=
  { trials := [], loglike := [], accepted := [], current := 0,
    oldpars := [], oldlike := 0, arate := 0 }

/-- Embedding of `MH._init_data(pars_start, nstep)`: allocate zeroed trial/loglike/accepted
arrays of `nstep` rows (replacing whatever was there), seed row 0 from
`pars_start`, mark it accepted, set `_current = 1`. -/
noncomputable def mhInitData (lnprobFn : List ℝ → ℝ) (parsStart : List ℝ)
    (nstep : ℕ) (st : MHState) : MHState :=
  { trials := (List.replicate nstep (List.replicate parsStart.length 0)).set 0 parsStart,
    loglike := (List.replicate nstep (0 : ℝ)).set 0 (lnprobFn parsStart),
    accepted := (List.replicate nstep (0 : ℕ)).set 0 1,
    current := 1,
    oldpars := parsStart,
    oldlike := lnprobFn parsStart,
    arate := st.arate }

/-- Embedding of `MH._step()`: propose, evaluate, accept when strictly better or when
`log(uniform) < newlike - oldlike`; on rejection record the previous
parameters and log-probability again.  Either way row `_current` is written
and `_current` advances. -/
noncomputable def mhStep (lnprobFn : List ℝ → ℝ) (propose : List ℝ → List ℝ)
    (u : ℝ) (st : MHState) : MHState :=
  let newpars := propose st.oldpars
  let newlike := lnprobFn newpars
  if st.oldlike < newlike ∨ Real.log u < newlike - st.oldlike then
    { st with
      accepted := st.accepted.set st.current 1,
      loglike := st.loglike.set st.current newlike,
      trials := st.trials.set st.current newpars,
      oldpars := newpars, oldlike := newlike,
      current := st.current + 1 }
  else
    { st with
      accepted := st.accepted.set st.current 0,
      loglike := st.loglike.set st.current st.oldlike,
      trials := st.trials.set st.current st.oldpars,
      current := st.current + 1 }

/-- Embedding of `MH.run_mcmc(pars_start, nstep)`: `_init_data`, then `_step()` for
`i in xrange(1, nstep)`, then `_arate = accepted.sum()/accepted.size`. -/
noncomputable def mhRunMCMC (lnprobFn : List ℝ → ℝ)
    (stepper : ℕ → List ℝ → List ℝ) (uniforms : ℕ → ℝ) (st : MHState)
    (parsStart : List ℝ) (nstep : ℕ) : MHState :=
  let st1 := mhInitData lnprobFn parsStart nstep st
  let st2 := (List.range' 1 (nstep - 1)).foldl
    (fun s i => mhStep lnprobFn (stepper i) (uniforms i) s) st1
  { st2 with arate := (st2.accepted.sum : ℝ) / (st2.accepted.length : ℝ) }

/-
  Helper lemmas.
-/

@[simp] lemma mkGauss_p (gp : GaussPars) : (mkGauss gp).p = gp.p := rfl

@[simp] lemma mkGauss_row (gp : GaussPars) : (mkGauss gp).row = gp.row := rfl

@[simp] lemma mkGauss_col (gp : GaussPars) : (mkGauss gp).col = gp.col := rfl

@[simp] lemma mkGauss_irr (gp : GaussPars) : (mkGauss gp).irr = gp.irr := rfl

@[simp] lemma mkGauss_irc (gp : GaussPars) : (mkGauss gp).irc = gp.irc := rfl

@[simp] lemma mkGauss_icc (gp : GaussPars) : (mkGauss gp).icc = gp.icc := rfl

@[simp] lemma mkGauss_det (gp : GaussPars) :
    (mkGauss gp).det = gp.irr * gp.icc - gp.irc * gp.irc := rfl

lemma gauss2dSet_pos (gmix : List Gauss2D) (i : ℕ) (gp : GaussPars)
    (h : 0 < gp.irr * gp.icc - gp.irc * gp.irc) :
    gauss2dSet gmix i gp = (none, gmix.set i (mkGauss gp)) := by
  simp only [gauss2dSet]
  rw [if_neg (not_le.mpr h)]

lemma gauss2dSet_nonpos (gmix : List Gauss2D) (i : ℕ) (gp : GaussPars)
    (h : gp.irr * gp.icc - gp.irc * gp.irc ≤ 0) :
    gauss2dSet gmix i gp = (some RangeErr.rangeError, gmix) := by
  simp only [gauss2dSet]
  rw [if_pos h]

/-- C1: for every write of a single Gaussian component via `_gauss2d_set`
(the primitive used by `GMix.fill`, `GMixModel.fill` and convolution) with
parameters (p,row,col,irr,irc,icc): a range error is raised if and only if
`det = irr*icc - irc*irc <= 0`; on that failure the mixture (in particular
the targeted component) is left unchanged; and on success the component
stores the six inputs together with det, drr = irr/det, drc = irc/det,
dcc = icc/det, norm = 1/(2*pi*sqrt(det)) and pnorm = p*norm. -/
theorem gauss2dSet_range_spec (gmix : List Gauss2D) (i : ℕ) (gp : GaussPars) :
    ((gauss2dSet gmix i gp).1.isSome ↔ gp.irr * gp.icc - gp.irc * gp.irc ≤ 0)
    ∧ (gp.irr * gp.icc - gp.irc * gp.irc ≤ 0 →
        (gauss2dSet gmix i gp).1 = some RangeErr.rangeError
        ∧ (gauss2dSet gmix i gp).2 = gmix)
    ∧ (0 < gp.irr * gp.icc - gp.irc * gp.irc →
        (gauss2dSet gmix i gp).1 = none
        ∧ (gauss2dSet gmix i gp).2 = gmix.set i
          { p := gp.p, row := gp.row, col := gp.col,
            irr := gp.irr, irc := gp.irc, icc := gp.icc,
            det := gp.irr * gp.icc - gp.irc * gp.irc,
            drr := gp.irr / (gp.irr * gp.icc - gp.irc * gp.irc),
            drc := gp.irc / (gp.irr * gp.icc - gp.irc * gp.irc),
            dcc := gp.icc / (gp.irr * gp.icc - gp.irc * gp.irc),
            norm := 1 / (2 * Real.pi * Real.sqrt (gp.irr * gp.icc - gp.irc * gp.irc)),
            pnorm := gp.p *
              (1 / (2 * Real.pi * Real.sqrt (gp.irr * gp.icc - gp.irc * gp.irc))) }) := by
  by_cases h : gp.irr * gp.icc - gp.irc * gp.irc ≤ 0
  · rw [gauss2dSet_nonpos gmix i gp h]
    refine ⟨by simp [h], fun _ => ⟨rfl, rfl⟩, fun hpos => absurd hpos (not_lt.mpr h)⟩
  · have hpos : 0 < gp.irr * gp.icc - gp.irc * gp.irc := lt_of_not_le h
    rw [gauss2dSet_pos gmix i gp hpos]
    refine ⟨by simp [h], fun hle => absurd hle h, fun _ => ⟨rfl, ?_⟩⟩
    have : mkGauss gp =
        { p := gp.p, row := gp.row, col := gp.col,
          irr := gp.irr, irc := gp.irc, icc := gp.icc,
          det := gp.irr * gp.icc - gp.irc * gp.irc,
          drr := gp.irr / (gp.irr * gp.icc - gp.irc * gp.irc),
          drc := gp.irc / (gp.irr * gp.icc - gp.irc * gp.irc),
          dcc := gp.icc / (gp.irr * gp.icc - gp.irc * gp.irc),
          norm := 1 / (2 * Real.pi * Real.sqrt (gp.irr * gp.icc - gp.irc * gp.irc)),
          pnorm := gp.p *
            (1 / (2 * Real.pi * Real.sqrt (gp.irr * gp.icc - gp.irc * gp.irc))) } := by
      simp only [mkGauss, mul_one_div]
    rw [this]

/-- Witness for C1: a concrete failing write (det = 1*1 - 1*1 = 0) leaves the
mixture unchanged, and a concrete successful write (det = 2*2 - 0*0 = 4)
stores the derived fields. -/
theorem gauss2dSet_range_spec_witness :
    ((1 : ℝ) * 1 - 1 * 1 ≤ 0
      ∧ (gauss2dSet [zeroGauss] 0 ⟨1, 0, 0, 1, 1, 1⟩).1 = some RangeErr.rangeError
      ∧ (gauss2dSet [zeroGauss] 0 ⟨1, 0, 0, 1, 1, 1⟩).2 = [zeroGauss])
    ∧ ((0 : ℝ) < 2 * 2 - 0 * 0
      ∧ (gauss2dSet [zeroGauss] 0 ⟨1, 5, 6, 2, 0, 2⟩).1 = none
      ∧ (gauss2dSet [zeroGauss] 0 ⟨1, 5, 6, 2, 0, 2⟩).2 = [zeroGauss].set 0
        { p := 1, row := 5, col := 6, irr := 2, irc := 0, icc := 2,
          det := 2 * 2 - 0 * 0, drr := 2 / (2 * 2 - 0 * 0),
          drc := 0 / (2 * 2 - 0 * 0), dcc := 2 / (2 * 2 - 0 * 0),
          norm := 1 / (2 * Real.pi * Real.sqrt (2 * 2 - 0 * 0)),
          pnorm := 1 * (1 / (2 * Real.pi * Real.sqrt (2 * 2 - 0 * 0))) }) := by
  constructor
  · refine ⟨by norm_num, (gauss2dSet_range_spec [zeroGauss] 0 ⟨1, 0, 0, 1, 1, 1⟩).2.1 (by norm_num)⟩
  · refine ⟨by norm_num, (gauss2dSet_range_spec [zeroGauss] 0 ⟨1, 5, 6, 2, 0, 2⟩).2.2 (by norm_num)⟩

/-- C6: `GMixEM.run_em` maps a completed kernel run `(numiter, fdiff)` to a
result with flags = EM_MAXITER (2) exactly when numiter >= maxiter (0
otherwise) carrying the numiter and fdiff fields, and maps a range error
raised during iteration to the result {flags: EM_RANGE_ERROR (1)} with no
numiter/fdiff fields. -/
theorem runEm_flags_spec (emOutcome : Except RangeErr (ℕ × ℝ)) (maxiter : ℕ) :
    (∀ numiter fdiff, emOutcome = Except.ok (numiter, fdiff) →
      runEm emOutcome maxiter =
        { flags := if maxiter ≤ numiter then 2 else 0,
          numiter := some numiter, fdiff := some fdiff })
    ∧ (∀ e, emOutcome = Except.error e →
      runEm emOutcome maxiter = { flags := 1, numiter := none, fdiff := none }) := by
  constructor
  · rintro n fd rfl
    rfl
  · rintro e rfl
    rfl

/-- Witness for C6: a run using 3 >= 2 iterations flags EM_MAXITER = 2, and a
range error yields exactly flags = 1 with empty numiter/fdiff. -/
theorem runEm_flags_spec_witness :
    (runEm (Except.ok (3, (1 / 2 : ℝ))) 2 =
      { flags := if 2 ≤ 3 then 2 else 0, numiter := some 3, fdiff := some (1 / 2) })
    ∧ (runEm (Except.error RangeErr.rangeError) 100 =
      { flags := 1, numiter := none, fdiff := none }) :=
  ⟨(runEm_flags_spec (Except.ok (3, (1 / 2 : ℝ))) 2).1 3 (1 / 2) rfl,
   (runEm_flags_spec (Except.error RangeErr.rangeError) 100).2 RangeErr.rangeError rfl⟩

/-- C7 evidence: after `set_cen(10, 20)` on `Jacobian(1, 2, 3, 4, 5, 6)`,
`get_cen()` still returns the construction-time centre (1, 2) -- not
(10, 20) -- because `get_cen` reads the duplicate instance attributes
`self.row0`, `self.col0` which `set_cen` never updates (it writes only the
`_data` record, which the rendering kernels read).  The linear part, det and
scale are indeed unchanged. -/
theorem jacobian_setCen_stale_getCen :
    jacobianGetCen (jacobianSetCen (jacobianInit 1 2 3 4 5 6) 10 20) = (1, 2)
    ∧ ((1 : ℝ), (2 : ℝ)) ≠ ((10 : ℝ), (20 : ℝ))
    ∧ (jacobianSetCen (jacobianInit 1 2 3 4 5 6) 10 20).data.row0 = 10
    ∧ (jacobianSetCen (jacobianInit 1 2 3 4 5 6) 10 20).data.col0 = 20
    ∧ (jacobianSetCen (jacobianInit 1 2 3 4 5 6) 10 20).data.dudrow = 3
    ∧ (jacobianSetCen (jacobianInit 1 2 3 4 5 6) 10 20).data.dudcol = 4
    ∧ (jacobianSetCen (jacobianInit 1 2 3 4 5 6) 10 20).data.dvdrow = 5
    ∧ (jacobianSetCen (jacobianInit 1 2 3 4 5 6) 10 20).data.dvdcol = 6
    ∧ jacobianGetDet (jacobianSetCen (jacobianInit 1 2 3 4 5 6) 10 20) =
        jacobianGetDet (jacobianInit 1 2 3 4 5 6)
    ∧ jacobianGetScale (jacobianSetCen (jacobianInit 1 2 3 4 5 6) 10 20) =
        jacobianGetScale (jacobianInit 1 2 3 4 5 6) := by
  refine ⟨rfl, ?_, rfl, rfl, rfl, rfl, rfl, rfl, rfl, rfl⟩
  simp only [ne_eq, Prod.mk.injEq]
  norm_num

lemma lnlikeLoop_error : ∀ (l : List (Except RangeErr (ℝ × ℝ × ℝ)))
    (a : ℝ × ℝ × ℝ), (∃ r ∈ l, r.isOk = false) →
    ∃ e, lnlikeLoop a l = Except.error e := by
  intro l
  induction l with
  | nil =>
    rintro a ⟨r, hr, _⟩
    exact absurd hr (List.not_mem_nil r)
  | cons hd tl ih =>
    rintro a ⟨r, hr, hbad⟩
    cases hd with
    | error e => exact ⟨e, rfl⟩
    | ok t =>
      rcases List.mem_cons.mp hr with h | hmem
      · subst h
        simp [Except.isOk, Except.toBool] at hbad
      · simpa [lnlikeLoop] using ih _ ⟨r, hmem, hbad⟩

lemma calcLnprobTry_error (priorsR : Except RangeErr ℝ)
    (fillR : Except RangeErr Unit)
    (loglikes : List (Except RangeErr (ℝ × ℝ × ℝ)))
    (h : priorsR.isOk = false ∨ fillR.isOk = false
      ∨ ∃ r ∈ loglikes, r.isOk = false) :
    ∃ e, calcLnprobTry priorsR fillR loglikes = Except.error e := by
  cases priorsR with
  | error e => exact ⟨e, rfl⟩
  | ok lp =>
    cases fillR with
    | error e => exact ⟨e, rfl⟩
    | ok u =>
      rcases h with h | h | h
      · simp [Except.isOk, Except.toBool] at h
      · simp [Except.isOk, Except.toBool] at h
      · obtain ⟨e, he⟩ := lnlikeLoop_error loglikes ((0 : ℝ), (0 : ℝ), (0 : ℝ)) h
        have he2 : lnlikeLoop (0 : ℝ × ℝ × ℝ) loglikes = Except.error e := by
          simpa using he
        exact ⟨e, by simp [calcLnprobTry, Except.bind, he2, Except.map]; rfl⟩

/-- C4: whenever any step of FitterBase.calc_lnprob raises a range error
(the prior evaluation, the mixture fill / PSF convolution, or any
per-observation likelihood evaluation), calc_lnprob returns the sentinel
triple (LOWVAL, 0.0, BIGVAL) -- log-probability LOWVAL, S/N numerator 0, S/N
denominator BIGVAL.  The function is total, so the exception never reaches
the caller. -/
theorem calcLnprob_range_sentinel (priorsR : Except RangeErr ℝ)
    (fillR : Except RangeErr Unit)
    (loglikes : List (Except RangeErr (ℝ × ℝ × ℝ)))
    (h : priorsR.isOk = false ∨ fillR.isOk = false
      ∨ ∃ r ∈ loglikes, r.isOk = false) :
    calcLnprob priorsR fillR loglikes = (LOWVAL, 0, BIGVAL) := by
  obtain ⟨e, he⟩ := calcLnprobTry_error priorsR fillR loglikes h
  simp [calcLnprob, he]

/-- Witness for C4: a prior evaluation raising a range error makes
calc_lnprob return (LOWVAL, 0, BIGVAL); so does a failing likelihood step. -/
theorem calcLnprob_range_sentinel_witness :
    calcLnprob (Except.error RangeErr.rangeError) (Except.ok ()) [] =
      (LOWVAL, 0, BIGVAL)
    ∧ calcLnprob (Except.ok 7) (Except.ok ())
        [Except.ok (1, 2, 3), Except.error RangeErr.rangeError] =
      (LOWVAL, 0, BIGVAL) :=
  ⟨calcLnprob_range_sentinel _ _ _ (Or.inl rfl),
   calcLnprob_range_sentinel _ _ _ (Or.inr (Or.inr
     ⟨Except.error RangeErr.rangeError, by simp, rfl⟩))⟩

lemma mhStep_trials_length (f : List ℝ → ℝ) (propose : List ℝ → List ℝ)
    (u : ℝ) (st : MHState) :
    (mhStep f propose u st).trials.length = st.trials.length := by
  simp only [mhStep]
  split <;> simp

lemma mhStep_accepted_length (f : List ℝ → ℝ) (propose : List ℝ → List ℝ)
    (u : ℝ) (st : MHState) :
    (mhStep f propose u st).accepted.length = st.accepted.length := by
  simp only [mhStep]
  split <;> simp

lemma mhFold_trials_length (f : List ℝ → ℝ) (stepper : ℕ → List ℝ → List ℝ)
    (uniforms : ℕ → ℝ) (l : List ℕ) :
    ∀ st : MHState,
      ((l.foldl (fun s i => mhStep f (stepper i) (uniforms i) s) st).trials.length
        = st.trials.length) := by
  induction l with
  | nil => intro st; rfl
  | cons i rest ih =>
    intro st
    simp only [List.foldl_cons]
    rw [ih, mhStep_trials_length]

/-- C9 evidence: `MH.run_mcmc` never appends to an existing chain.  Its
docstring reads "Append new steps if trials already exist in the chain", but
`_init_data` unconditionally reallocates the trials/loglike/accepted arrays,
so after run_mcmc(p1, n1) followed by run_mcmc(p2, n2) on the same instance
the trial array holds exactly n2 rows, not n1 + n2. -/
theorem mh_run_mcmc_replaces_trials (f : List ℝ → ℝ)
    (stepper : ℕ → List ℝ → List ℝ) (uniforms : ℕ → ℝ) (st : MHState)
    (p1 p2 : List ℝ) (n1 n2 : ℕ) :
    (mhRunMCMC f stepper uniforms
      (mhRunMCMC f stepper uniforms st p1 n1) p2 n2).trials.length = n2 := by
  simp only [mhRunMCMC]
  rw [mhFold_trials_length]
  simp [mhInitData]

lemma head?_set_of_pos {α : Type} (l : List α) (i : ℕ) (x : α) (h : 1 ≤ i) :
    (l.set i x).head? = l.head? := by
  cases l with
  | nil => rfl
  | cons a as =>
    cases i with
    | zero => omega
    | succ k => rfl

lemma head?_replicate_set {α : Type} (x y : α) (n : ℕ) (h : 1 ≤ n) :
    ((List.replicate n x).set 0 y).head? = some y := by
  cases n with
  | zero => omega
  | succ m => rfl

/-- State invariant used for C10: row 0 of the trial / loglike / accepted
arrays keeps its seeded value across steps, the write cursor stays >= 1, and
the accepted array keeps its allocated length. -/
def MHInv (p : List ℝ) (lnp : ℝ) (n : ℕ) (st : MHState) : Prop :=
  st.trials.head? = some p ∧ st.loglike.head? = some lnp
    ∧ st.accepted.head? = some 1 ∧ 1 ≤ st.current ∧ st.accepted.length = n

lemma mhStep_inv (f : List ℝ → ℝ) (propose : List ℝ → List ℝ) (u : ℝ)
    (p : List ℝ) (lnp : ℝ) (n : ℕ) (st : MHState) (h : MHInv p lnp n st) :
    MHInv p lnp n (mhStep f propose u st) := by
  obtain ⟨h1, h2, h3, h4, h5⟩ := h
  simp only [mhStep]
  split <;>
    exact ⟨by rw [head?_set_of_pos _ _ _ h4]; exact h1,
      by rw [head?_set_of_pos _ _ _ h4]; exact h2,
      by rw [head?_set_of_pos _ _ _ h4]; exact h3,
      Nat.le_succ_of_le h4, by simpa using h5⟩

lemma mhFold_inv (f : List ℝ → ℝ) (stepper : ℕ → List ℝ → List ℝ)
    (uniforms : ℕ → ℝ) (p : List ℝ) (lnp : ℝ) (n : ℕ) (l : List ℕ) :
    ∀ st : MHState, MHInv p lnp n st →
      MHInv p lnp n (l.foldl (fun s i => mhStep f (stepper i) (uniforms i) s) st) := by
  induction l with
  | nil => intro st h; exact h
  | cons i rest ih =>
    intro st h
    simp only [List.foldl_cons]
    exact ih _ (mhStep_inv _ _ _ _ _ _ _ h)

lemma head_one_le_sum : ∀ l : List ℕ, l.head? = some 1 → 1 ≤ l.sum := by
  intro l h
  cases l with
  | nil => simp at h
  | cons a as =>
    simp at h
    simp [h]

/-- C10: for every `MH.run_mcmc(pars_start, nstep)` with nstep >= 1, row 0 of
the trial array is pars_start, its log-probability slot holds
lnprob_func(pars_start), the first accepted flag is 1 unconditionally, and
therefore the reported acceptance rate is at least 1/nstep -- never zero. -/
theorem mh_run_mcmc_first_row (f : List ℝ → ℝ)
    (stepper : ℕ → List ℝ → List ℝ) (uniforms : ℕ → ℝ) (st : MHState)
    (p : List ℝ) (nstep : ℕ) (h : 1 ≤ nstep) :
    (mhRunMCMC f stepper uniforms st p nstep).trials.head? = some p
    ∧ (mhRunMCMC f stepper uniforms st p nstep).loglike.head? = some (f p)
    ∧ (mhRunMCMC f stepper uniforms st p nstep).accepted.head? = some 1
    ∧ 1 / (nstep : ℝ) ≤ (mhRunMCMC f stepper uniforms st p nstep).arate := by
  have hinit : MHInv p (f p) nstep (mhInitData f p nstep st) := by
    refine ⟨?_, ?_, ?_, le_refl 1, ?_⟩
    · exact head?_replicate_set _ _ _ h
    · exact head?_replicate_set _ _ _ h
    · exact head?_replicate_set _ _ _ h
    · simp [mhInitData]
  have hfold := mhFold_inv f stepper uniforms p (f p) nstep
    (List.range' 1 (nstep - 1)) (mhInitData f p nstep st) hinit
  obtain ⟨h1, h2, h3, h4, h5⟩ := hfold
  refine ⟨h1, h2, h3, ?_⟩
  simp only [mhRunMCMC]
  set st2 := (List.range' 1 (nstep - 1)).foldl
    (fun s i => mhStep f (stepper i) (uniforms i) s) (mhInitData f p nstep st) with hst2
  have hsum : 1 ≤ st2.accepted.sum := head_one_le_sum _ h3
  have hlen : st2.accepted.length = nstep := h5
  have hn : (0 : ℝ) < (nstep : ℝ) := by
    exact_mod_cast Nat.lt_of_lt_of_le Nat.zero_lt_one h
  rw [hlen]
  have h1s : (1 : ℝ) ≤ (st2.accepted.sum : ℝ) := by exact_mod_cast hsum
  exact (div_le_div_iff_of_pos_right hn).mpr h1s

/-- Witness for C10: one concrete two-step chain with a constant
log-probability: the first row holds the start point, its log-probability and
an accepted flag of 1; the acceptance rate is at least 1/2. -/
theorem mh_run_mcmc_first_row_witness :
    (1 : ℕ) ≤ 2
    ∧ ((mhRunMCMC (fun _ => 0) (fun _ q => q) (fun _ => 1) mhEmpty [5] 2).trials.head?
          = some [5]
      ∧ (mhRunMCMC (fun _ => 0) (fun _ q => q) (fun _ => 1) mhEmpty [5] 2).loglike.head?
          = some 0
      ∧ (mhRunMCMC (fun _ => 0) (fun _ q => q) (fun _ => 1) mhEmpty [5] 2).accepted.head?
          = some 1
      ∧ 1 / ((2 : ℕ) : ℝ)
          ≤ (mhRunMCMC (fun _ => 0) (fun _ q => q) (fun _ => 1) mhEmpty [5] 2).arate) :=
  ⟨by norm_num,
   mh_run_mcmc_first_row (fun _ => 0) (fun _ q => q) (fun _ => 1) mhEmpty [5] 2
     (by norm_num)⟩

/-- The concrete singular Hessian [[1,1],[1,1]] used to exercise the
singular-inversion path of get_cov; its diagonal is the identity. -/
noncomputable def singHess : Mat := [[1, 1], [1, 1]]

/-- A matrix inverter (stand-in for numpy.linalg.inv) that fails exactly on
`singHess` and succeeds elsewhere. -/
noncomputable def invStub : Mat → Option Mat :=
  fun m => if m = singHess then none else some [[1, 0], [0, 1]]

/-- C8 evidence: in `MaxSimple.get_cov` the singular-Hessian fallback
computes `hdiag = diag(diag(hess))` but then inverts `hess` again, so for the
singular Hessian [[1,1],[1,1]] -- whose diagonal [[1,0],[0,1]] the inverter
handles fine -- get_cov still raises (returns none) and calc_cov falls
through to flags EIG_NOTFINITE with no covariance, contradicting the
own docstring of the method (a diagonal version is attempted to be inverted). -/
theorem getCov_diagonal_fallback_dead :
    invStub singHess = none
    ∧ diagMatOf singHess = [[1, 0], [0, 1]]
    ∧ invStub (diagMatOf singHess) = some [[1, 0], [0, 1]]
    ∧ getCov invStub singHess = none
    ∧ calcCov invStub singHess 0 = (EIG_NOTFINITE, none) := by
  have hdiag : diagMatOf singHess = [[1, 0], [0, 1]] := by
    norm_num [diagMatOf, singHess, List.range_succ]
  have hne : ¬([[(1 : ℝ), 0], [0, 1]] = singHess) := by
    norm_num [singHess]
  have hself : invStub singHess = none := by
    simp [invStub]
  have hdiaginv : invStub (diagMatOf singHess) = some [[1, 0], [0, 1]] := by
    rw [hdiag]
    simp only [invStub]
    rw [if_neg hne]
  have hgetcov : getCov invStub singHess = none := by
    simp [getCov, hself]
  refine ⟨hself, hdiag, hdiaginv, hgetcov, ?_⟩
  simp [calcCov, hgetcov]

/-- C5 (amended): run_leastsq interprets solver status codes 1-4 as success
(no status bit; with a usable covariance the flags are 0 and the solver
parameters are returned); every code > 4 maps to flag bit 2^(code-5) with
parameters, covariance AND errors sentinel-filled; a null returned covariance
maps to LM_SINGULAR_MATRIX (16) with covariance and errors sentinel-filled
but the parameters KEPT from the solver; on the covariance-validation failure
path only the errors are sentinel-filled (parameters and the scaled
covariance are kept, flags carry the validation bits); the NaN/inf and
zero-division exception paths sentinel-fill parameters and covariance, set
LM_FUNC_NOTFINITE / LM_DIV_ZERO, and store no errors entry at all. -/
theorem runLeastsq_paths_spec (npars : ℕ) (pars0 : List ℝ) (pcov0 : Option Mat)
    (nfev : ℕ) (errmsg : String) (ier : ℕ) (fdiffAtPars : List ℝ) (dof : ℝ)
    (nPriorPars : ℕ) (eig : Option (List ℝ)) (hier : 1 ≤ ier) :
    ((ier ≤ 4 → ∀ m, pcov0 = some m →
      testCov (matScale m (((fdiffAtPars.drop nPriorPars).map fun t => t ^ 2).sum / dof)) eig = 0 →
      runLeastsq npars (LMOutcome.result pars0 pcov0 nfev errmsg ier)
          fdiffAtPars dof nPriorPars eig = Except.ok
        { flags := 0, nfev := nfev, ier := some ier, errmsg := errmsg,
          pars := pars0,
          parsErr := some ((diagVec (matScale m
            (((fdiffAtPars.drop nPriorPars).map fun t => t ^ 2).sum / dof))).map Real.sqrt),
          parsCov0 := some m,
          parsCov := matScale m
            (((fdiffAtPars.drop nPriorPars).map fun t => t ^ 2).sum / dof) })
    ∧ (4 < ier →
      runLeastsq npars (LMOutcome.result pars0 pcov0 nfev errmsg ier)
          fdiffAtPars dof nPriorPars eig = Except.ok
        { flags := 2 ^ (ier - 5), nfev := nfev, ier := some ier, errmsg := errmsg,
          pars := List.replicate npars PDEF,
          parsErr := some (List.replicate npars CDEF),
          parsCov0 := pcov0,
          parsCov := constMat npars CDEF })
    ∧ (ier ≤ 4 → pcov0 = none →
      runLeastsq npars (LMOutcome.result pars0 pcov0 nfev errmsg ier)
          fdiffAtPars dof nPriorPars eig = Except.ok
        { flags := LM_SINGULAR_MATRIX, nfev := nfev, ier := some ier,
          errmsg := "singular covariance",
          pars := pars0,
          parsErr := some (List.replicate npars CDEF),
          parsCov0 := none,
          parsCov := constMat npars CDEF })
    ∧ (ier ≤ 4 → ∀ m, pcov0 = some m →
      testCov (matScale m (((fdiffAtPars.drop nPriorPars).map fun t => t ^ 2).sum / dof)) eig ≠ 0 →
      runLeastsq npars (LMOutcome.result pars0 pcov0 nfev errmsg ier)
          fdiffAtPars dof nPriorPars eig = Except.ok
        { flags := testCov (matScale m
            (((fdiffAtPars.drop nPriorPars).map fun t => t ^ 2).sum / dof)) eig,
          nfev := nfev, ier := some ier, errmsg := "bad covariance matrix",
          pars := pars0,
          parsErr := some (List.replicate npars CDEF),
          parsCov0 := some m,
          parsCov := matScale m
            (((fdiffAtPars.drop nPriorPars).map fun t => t ^ 2).sum / dof) })
    ∧ (runLeastsq npars LMOutcome.zeroDivErr fdiffAtPars dof nPriorPars eig
        = Except.ok
        { flags := LM_DIV_ZERO, nfev := -1, ier := none, errmsg := "zero division",
          pars := List.replicate npars PDEF, parsErr := none,
          parsCov0 := some (constMat npars CDEF), parsCov := constMat npars CDEF })
    ∧ (pyStrIn "NaNs" errmsg = true →
      runLeastsq npars (LMOutcome.valueErr errmsg) fdiffAtPars dof nPriorPars eig
        = Except.ok
        { flags := LM_FUNC_NOTFINITE, nfev := -1, ier := none, errmsg := "not finite",
          pars := List.replicate npars PDEF, parsErr := none,
          parsCov0 := some (constMat npars CDEF), parsCov := constMat npars CDEF })) := by
  have h0 : ¬(ier = 0) := by omega
  refine ⟨?_, ?_, ?_, ?_, ?_, ?_⟩
  · rintro hle m rfl hok
    simp only [runLeastsq, if_neg h0, if_neg (by omega : ¬(4 < ier))]
    rw [if_neg (by simpa using hok)]
  · intro hgt
    simp only [runLeastsq, if_neg h0, if_pos hgt, getDefStuff]
  · rintro hle rfl
    simp only [runLeastsq, if_neg h0, if_neg (by omega : ¬(4 < ier)), getDefStuff]
  · rintro hle m rfl hbad
    simp only [runLeastsq, if_neg h0, if_neg (by omega : ¬(4 < ier))]
    rw [if_pos (by simpa using hbad)]
    simp only [getDefStuff]
  · simp only [runLeastsq, lmZeroDivResult, getDefStuff]
  · intro hnan
    simp only [runLeastsq]
    rw [if_pos (by simp [hnan])]
    simp only [lmNotFiniteResult, getDefStuff]

/-- Witness for C5: status code 6 maps to flag bit 2^(6-5) = 2 with
parameters, covariance and errors all sentinel-filled. -/
theorem runLeastsq_paths_spec_witness :
    (1 : ℕ) ≤ 6
    ∧ 4 < 6
    ∧ runLeastsq 1 (LMOutcome.result [2] (some [[1]]) 3 "ok" 6) [0] 1 0 (some [1])
        = Except.ok
        { flags := 2 ^ (6 - 5), nfev := 3, ier := some 6, errmsg := "ok",
          pars := List.replicate 1 PDEF,
          parsErr := some (List.replicate 1 CDEF),
          parsCov0 := some [[1]],
          parsCov := constMat 1 CDEF } :=
  ⟨by norm_num, by norm_num,
   (runLeastsq_paths_spec 1 [2] (some [[1]]) 3 "ok" 6 [0] 1 0 (some [1])
     (by norm_num)).2.1 (by norm_num)⟩

/-- C5 counterexample: on the null-covariance (LM_SINGULAR_MATRIX) failure
path the returned parameters are the values from the solver ([2] here), NOT the
PDEF sentinel fill the claim asserts for every failure path. -/
theorem runLeastsq_singular_keeps_pars :
    runLeastsq 1 (LMOutcome.result [2] none 3 "m" 1) [0] 1 0 none = Except.ok
      { flags := LM_SINGULAR_MATRIX, nfev := 3, ier := some 1,
        errmsg := "singular covariance",
        pars := [2], parsErr := some (List.replicate 1 CDEF),
        parsCov0 := none, parsCov := constMat 1 CDEF }
    ∧ (2 : ℝ) ≠ PDEF
    ∧ [(2 : ℝ)] ≠ List.replicate 1 PDEF := by
  refine ⟨?_, ?_, ?_⟩
  · norm_num [runLeastsq, getDefStuff]
  · norm_num [PDEF]
  · simp only [List.replicate, ne_eq, List.cons.injEq, and_true, not_and]
    intro h
    norm_num [PDEF] at h

/-- C3 counterexample: at x = -1/4 (inside the supported domain (-12.5, 0],
reached from chi2 = 1/2), the integer bin computed by the code is
`int64(x - 0.5) = trunc(-3/4) = 0`, not `floor(x - 0.5) = -1`, and the
polynomial argument f = x - ival = -1/4 is NOT in [0, 1). -/
theorem fast3_floor_counterexample :
    fast3Ival (-(1 / 4) : ℝ) = 0
    ∧ ⌊(-(1 / 4) : ℝ) - 0.5⌋ = -1
    ∧ fast3Ival (-(1 / 4) : ℝ) ≠ ⌊(-(1 / 4) : ℝ) - 0.5⌋
    ∧ fast3F (-(1 / 4) : ℝ) = -(1 / 4)
    ∧ ¬(0 ≤ fast3F (-(1 / 4) : ℝ))
    ∧ (-(25 / 2) : ℝ) < -(1 / 4) ∧ (-(1 / 4) : ℝ) ≤ 0 := by
  have hival : fast3Ival (-(1 / 4) : ℝ) = 0 := by
    rw [fast3Ival, truncZ, if_neg (by norm_num)]
    rw [show ((-(1 / 4) : ℝ) - 0.5) = -(3 / 4) by norm_num]
    rw [Int.ceil_eq_iff]
    norm_num
  have hfloor : ⌊(-(1 / 4) : ℝ) - 0.5⌋ = -1 := by
    rw [show ((-(1 / 4) : ℝ) - 0.5) = -(3 / 4) by norm_num]
    rw [Int.floor_eq_iff]
    norm_num
  have hf : fast3F (-(1 / 4) : ℝ) = -(1 / 4) := by
    rw [fast3F, hival]
    norm_num
  exact ⟨hival, hfloor, by rw [hival, hfloor]; norm_num, hf,
    by rw [hf]; norm_num, by norm_num, by norm_num⟩

/-- C3 (amended): for every argument x <= 0, the integer bin is
ival = int64(x - 0.5), i.e. truncation toward zero, which is the integer
nearest to x (x - 1/2 <= ival < x + 1/2); hence the polynomial argument
f = x - ival lies in (-1/2, 1/2] (not [0,1)); the table index is ival - i0
with i0 = -26; and the returned value is
table[index] * (6 + f*(6 + f*(3 + f))) * 0.16666666 (the literal 8-digit
truncation of 1/6 used by the source). -/
theorem fastExp3_spec (expvals : ℤ → ℝ) (x : ℝ) (hx : x ≤ 0) :
    (x - 1 / 2 ≤ (fast3Ival x : ℝ) ∧ (fast3Ival x : ℝ) < x + 1 / 2)
    ∧ (-(1 / 2) < fast3F x ∧ fast3F x ≤ 1 / 2)
    ∧ fastExp3 expvals exp3I0 x
        = expvals (fast3Ival x + 26)
          * ((6 + fast3F x * (6 + fast3F x * (3 + fast3F x))) * 0.16666666) := by
  have hneg : ¬((0 : ℝ) ≤ x - 0.5) := by norm_num; linarith
  have hival : fast3Ival x = ⌈x - 0.5⌉ := by rw [fast3Ival, truncZ, if_neg hneg]
  have hlow : x - 0.5 ≤ (fast3Ival x : ℝ) := by rw [hival]; exact Int.le_ceil _
  have hhigh : (fast3Ival x : ℝ) < (x - 0.5) + 1 := by
    rw [hival]; exact Int.ceil_lt_add_one _
  have hb : (x - 1 / 2 ≤ (fast3Ival x : ℝ) ∧ (fast3Ival x : ℝ) < x + 1 / 2) := by
    constructor <;> [linarith [hlow]; skip]
    have : (0.5 : ℝ) = 1 / 2 := by norm_num
    linarith [hhigh]
  refine ⟨hb, ⟨by rw [fast3F]; linarith [hb.2], by rw [fast3F]; linarith [hb.1]⟩, ?_⟩
  rw [fastExp3, fast3Fexp, exp3I0]
  rw [show fast3Ival x - (-26) = fast3Ival x + 26 by ring]

/-- Witness for C3: at x = -3 with the constant-1 table the bin is the
nearest integer to -3, f lies in (-1/2, 1/2], and the value equation holds. -/
theorem fastExp3_spec_witness :
    ((-3 : ℝ) ≤ 0)
    ∧ (((-3 : ℝ) - 1 / 2 ≤ (fast3Ival (-3 : ℝ) : ℝ)
        ∧ (fast3Ival (-3 : ℝ) : ℝ) < (-3 : ℝ) + 1 / 2)
      ∧ (-(1 / 2) < fast3F (-3 : ℝ) ∧ fast3F (-3 : ℝ) ≤ 1 / 2)
      ∧ fastExp3 (fun _ => 1) exp3I0 (-3 : ℝ)
          = (fun _ : ℤ => (1 : ℝ)) (fast3Ival (-3 : ℝ) + 26)
            * ((6 + fast3F (-3 : ℝ) * (6 + fast3F (-3 : ℝ) * (3 + fast3F (-3 : ℝ))))
              * 0.16666666)) :=
  ⟨by norm_num, fastExp3_spec (fun _ => 1) (-3 : ℝ) (by norm_num)⟩

lemma take_succ_set {α : Type} (a : α) :
    ∀ (n : ℕ) (l : List α), n < l.length →
      (l.set n a).take (n + 1) = l.take n ++ [a] := by
  intro n
  induction n with
  | zero =>
    intro l h
    cases l with
    | nil => simp at h
    | cons x xs => simp
  | succ m ih =>
    intro l h
    cases l with
    | nil => simp at h
    | cons x xs =>
      simp only [List.set_cons_succ, List.take_succ_cons, List.cons_append]
      rw [ih xs (by simpa using h)]

lemma drop_set_of_lt {α : Type} (a : α) :
    ∀ (n j : ℕ) (l : List α), n < j → (l.set n a).drop j = l.drop j := by
  intro n
  induction n with
  | zero =>
    intro j l h
    cases l with
    | nil => simp
    | cons x xs =>
      cases j with
      | zero => omega
      | succ k => simp
  | succ m ih =>
    intro j l h
    cases l with
    | nil => simp
    | cons x xs =>
      cases j with
      | zero => omega
      | succ k =>
        simp only [List.set_cons_succ, List.drop_succ_cons]
        exact ih k xs (by omega)

lemma gauss2dSetLoop_all_pos :
    ∀ (items : List GaussPars) (gmix : List Gauss2D) (start : ℕ),
      (∀ gp ∈ items, 0 < gp.irr * gp.icc - gp.irc * gp.irc) →
      start + items.length ≤ gmix.length →
      gauss2dSetLoop gmix items start =
        (none, gmix.take start ++ items.map mkGauss ++ gmix.drop (start + items.length)) := by
  intro items
  induction items with
  | nil =>
    intro gmix start _ _
    simp [gauss2dSetLoop]
  | cons gp rest ih =>
    intro gmix start hpos hlen
    have hstart : start < gmix.length := by
      simp only [List.length_cons] at hlen
      omega
    have hcons : gauss2dSetLoop gmix (gp :: rest) start
        = gauss2dSetLoop (gmix.set start (mkGauss gp)) rest (start + 1) := by
      rw [gauss2dSetLoop, gauss2dSet_pos gmix start gp (hpos gp (List.mem_cons_self gp rest))]
    rw [hcons]
    rw [ih (gmix.set start (mkGauss gp)) (start + 1)
      (fun q hq => hpos q (List.mem_cons_of_mem gp hq))
      (by simp only [List.length_set, List.length_cons] at *; omega)]
    rw [take_succ_set (mkGauss gp) start gmix hstart]
    rw [drop_set_of_lt (mkGauss gp) start (start + 1 + rest.length) gmix (by omega)]
    rw [show start + 1 + rest.length = start + (rest.length + 1) by omega]
    simp [List.append_assoc]

lemma convolveParams_eq (obj psf : List Gauss2D) :
    convolveParams obj psf = obj.flatMap fun o => psf.map fun q =>
      convPars o q (gmixRowsum psf / gmixPsum psf) (gmixColsum psf / gmixPsum psf)
        (1 / gmixPsum psf) := rfl

lemma convolveParams_length (obj psf : List Gauss2D) :
    (convolveParams obj psf).length = obj.length * psf.length := by
  rw [convolveParams_eq, List.length_flatMap]
  have hlen : (List.length ∘ fun o : Gauss2D => psf.map fun q =>
      convPars o q (gmixRowsum psf / gmixPsum psf) (gmixColsum psf / gmixPsum psf)
        (1 / gmixPsum psf)) = fun _ : Gauss2D => psf.length :=
    funext fun o => by simp [Function.comp]
  rw [hlen, List.map_const', List.sum_replicate, smul_eq_mul, mul_comm]

lemma sum_map_flatMap {α β : Type} (l : List α) (f : α → List β) (g : β → ℝ) :
    ((l.flatMap f).map g).sum = (l.map fun a => ((f a).map g).sum).sum := by
  induction l with
  | nil => simp
  | cons a rest ih => simp [List.flatMap_cons, ih]

lemma sum_map_linear (l : List Gauss2D) (a b c : ℝ) :
    (l.map fun q => a * q.p + b * (q.p * q.row) + c * (q.p * q.col)).sum
      = a * gmixPsum l + b * gmixRowsum l + c * gmixColsum l := by
  induction l with
  | nil => simp [gmixPsum, gmixRowsum, gmixColsum]
  | cons q rest ih =>
    simp only [List.map_cons, List.sum_cons, gmixPsum, gmixRowsum, gmixColsum] at *
    rw [ih]
    ring

lemma gmixPsum_map_mkGauss (l : List GaussPars) :
    gmixPsum (l.map mkGauss) = (l.map fun gp => gp.p).sum := by
  have h : ((fun x : Gauss2D => x.p) ∘ mkGauss) = fun gp : GaussPars => gp.p :=
    funext fun gp => by simp [Function.comp]
  rw [gmixPsum, List.map_map, h]

lemma gmixRowsum_map_mkGauss (l : List GaussPars) :
    gmixRowsum (l.map mkGauss) = (l.map fun gp => gp.p * gp.row).sum := by
  have h : ((fun x : Gauss2D => x.p * x.row) ∘ mkGauss)
      = fun gp : GaussPars => gp.p * gp.row :=
    funext fun gp => by simp [Function.comp]
  rw [gmixRowsum, List.map_map, h]

lemma gmixColsum_map_mkGauss (l : List GaussPars) :
    gmixColsum (l.map mkGauss) = (l.map fun gp => gp.p * gp.col).sum := by
  have h : ((fun x : Gauss2D => x.p * x.col) ∘ mkGauss)
      = fun gp : GaussPars => gp.p * gp.col :=
    funext fun gp => by simp [Function.comp]
  rw [gmixColsum, List.map_map, h]

lemma convolved_psum (obj psf : List Gauss2D) (hQ : gmixPsum psf ≠ 0) :
    gmixPsum ((convolveParams obj psf).map mkGauss) = gmixPsum obj := by
  rw [gmixPsum_map_mkGauss, convolveParams_eq, sum_map_flatMap]
  have hone : ∀ o : Gauss2D,
      (((psf.map fun q => convPars o q (gmixRowsum psf / gmixPsum psf)
          (gmixColsum psf / gmixPsum psf) (1 / gmixPsum psf)).map
        fun gp => gp.p)).sum = o.p := by
    intro o
    rw [List.map_map]
    have h2 : ((fun gp : GaussPars => gp.p) ∘ fun q =>
        convPars o q (gmixRowsum psf / gmixPsum psf)
          (gmixColsum psf / gmixPsum psf) (1 / gmixPsum psf))
        = fun q : Gauss2D =>
          (o.p * (1 / gmixPsum psf)) * q.p + 0 * (q.p * q.row) + 0 * (q.p * q.col) := by
      funext q
      simp [Function.comp, convPars]
      ring
    rw [h2, sum_map_linear]
    field_simp
  have hfun : (fun o : Gauss2D =>
      (((psf.map fun q => convPars o q (gmixRowsum psf / gmixPsum psf)
          (gmixColsum psf / gmixPsum psf) (1 / gmixPsum psf)).map
        fun gp => gp.p)).sum) = fun o : Gauss2D => o.p := funext hone
  rw [hfun]
  rfl

lemma convolved_rowsum (obj psf : List Gauss2D) (hQ : gmixPsum psf ≠ 0) :
    gmixRowsum ((convolveParams obj psf).map mkGauss) = gmixRowsum obj := by
  rw [gmixRowsum_map_mkGauss, convolveParams_eq, sum_map_flatMap]
  have hone : ∀ o : Gauss2D,
      (((psf.map fun q => convPars o q (gmixRowsum psf / gmixPsum psf)
          (gmixColsum psf / gmixPsum psf) (1 / gmixPsum psf)).map
        fun gp => gp.p * gp.row)).sum = o.p * o.row := by
    intro o
    rw [List.map_map]
    have h2 : ((fun gp : GaussPars => gp.p * gp.row) ∘ fun q =>
        convPars o q (gmixRowsum psf / gmixPsum psf)
          (gmixColsum psf / gmixPsum psf) (1 / gmixPsum psf))
        = fun q : Gauss2D =>
          (o.p * (1 / gmixPsum psf) * (o.row - gmixRowsum psf / gmixPsum psf)) * q.p
          + (o.p * (1 / gmixPsum psf)) * (q.p * q.row) + 0 * (q.p * q.col) := by
      funext q
      simp [Function.comp, convPars]
      ring
    rw [h2, sum_map_linear]
    field_simp
    ring
  have hfun : (fun o : Gauss2D =>
      (((psf.map fun q => convPars o q (gmixRowsum psf / gmixPsum psf)
          (gmixColsum psf / gmixPsum psf) (1 / gmixPsum psf)).map
        fun gp => gp.p * gp.row)).sum) = fun o : Gauss2D => o.p * o.row := funext hone
  rw [hfun]
  rfl

lemma convolved_colsum (obj psf : List Gauss2D) (hQ : gmixPsum psf ≠ 0) :
    gmixColsum ((convolveParams obj psf).map mkGauss) = gmixColsum obj := by
  rw [gmixColsum_map_mkGauss, convolveParams_eq, sum_map_flatMap]
  have hone : ∀ o : Gauss2D,
      (((psf.map fun q => convPars o q (gmixRowsum psf / gmixPsum psf)
          (gmixColsum psf / gmixPsum psf) (1 / gmixPsum psf)).map
        fun gp => gp.p * gp.col)).sum = o.p * o.col := by
    intro o
    rw [List.map_map]
    have h2 : ((fun gp : GaussPars => gp.p * gp.col) ∘ fun q =>
        convPars o q (gmixRowsum psf / gmixPsum psf)
          (gmixColsum psf / gmixPsum psf) (1 / gmixPsum psf))
        = fun q : Gauss2D =>
          (o.p * (1 / gmixPsum psf) * (o.col - gmixColsum psf / gmixPsum psf)) * q.p
          + 0 * (q.p * q.row) + (o.p * (1 / gmixPsum psf)) * (q.p * q.col) := by
      funext q
      simp [Function.comp, convPars]
      ring
    rw [h2, sum_map_linear]
    field_simp
    ring
  have hfun : (fun o : Gauss2D =>
      (((psf.map fun q => convPars o q (gmixRowsum psf / gmixPsum psf)
          (gmixColsum psf / gmixPsum psf) (1 / gmixPsum psf)).map
        fun gp => gp.p * gp.col)).sum) = fun o : Gauss2D => o.p * o.col := funext hone
  rw [hfun]
  rfl

lemma getElem?_flatMap_pair {α β γ : Type} (F : α → β → γ) (l2 : List β) :
    ∀ (l1 : List α) (i j : ℕ) (hi : i < l1.length) (hj : j < l2.length),
      (l1.flatMap fun o => l2.map fun q => F o q)[i * l2.length + j]? =
        some (F l1[i] l2[j]) := by
  intro l1
  induction l1 with
  | nil =>
    intro i j hi hj
    simp at hi
  | cons o rest ih =>
    intro i j hi hj
    rw [List.flatMap_cons]
    cases i with
    | zero =>
      rw [List.getElem?_append_left (by simpa using hj)]
      simp [List.getElem?_map, List.getElem?_eq_getElem hj]
    | succ m =>
      have hL : (l2.map fun q => F o q).length = l2.length := by simp
      have hge : (l2.map fun q => F o q).length ≤ (m + 1) * l2.length + j := by
        rw [hL, Nat.succ_mul]
        omega
      rw [List.getElem?_append_right hge]
      rw [hL, show (m + 1) * l2.length + j - l2.length = m * l2.length + j by
        rw [Nat.succ_mul]; omega]
      have := ih m j (by simpa using hi) hj
      rw [this]
      simp

/-- C2 (amended): for every pair of mixtures whose pairwise summed second
moments all have positive determinant (per-component validity det > 0 alone
does not guarantee this; it does hold whenever the components are positive
definite) and whose psf has nonzero total flux, `self.convolve(psf)` returns
a new mixture with exactly len(self)*len(psf) components; the component for
pair (i, j) (written at index i*len(psf)+j) has
p = p_obj_i * p_psf_j / sum(p_psf), row = row_obj_i + (row_psf_j - cen_row_psf)
with cen_row_psf the psf flux-weighted centroid row (col analogously), and
irr, irc, icc each the sum of the object and psf moments; and when the
psf flux-weighted centroid is (0,0) the flux-weighted centroid of the
convolved mixture equals that of self. -/
theorem convolve_pairwise_spec (obj psf : List Gauss2D)
    (hdet : ∀ o ∈ obj, ∀ q ∈ psf,
      0 < (o.irr + q.irr) * (o.icc + q.icc) - (o.irc + q.irc) * (o.irc + q.irc))
    (hQ : gmixPsum psf ≠ 0) :
    convolve obj psf = Except.ok ((convolveParams obj psf).map mkGauss)
    ∧ ((convolveParams obj psf).map mkGauss).length = obj.length * psf.length
    ∧ (∀ i j (hi : i < obj.length) (hj : j < psf.length),
        ((convolveParams obj psf).map mkGauss)[i * psf.length + j]? = some (mkGauss
          { p := obj[i].p * psf[j].p * (1 / gmixPsum psf),
            row := obj[i].row + (psf[j].row - gmixRowsum psf / gmixPsum psf),
            col := obj[i].col + (psf[j].col - gmixColsum psf / gmixPsum psf),
            irr := obj[i].irr + psf[j].irr,
            irc := obj[i].irc + psf[j].irc,
            icc := obj[i].icc + psf[j].icc }))
    ∧ (getCen psf = (0, 0) →
        getCen ((convolveParams obj psf).map mkGauss) = getCen obj) := by
  have hitems : ∀ gp ∈ convolveParams obj psf,
      0 < gp.irr * gp.icc - gp.irc * gp.irc := by
    intro gp hgp
    rw [convolveParams_eq] at hgp
    obtain ⟨o, ho, hgp2⟩ := List.mem_flatMap.mp hgp
    obtain ⟨q, hq, rfl⟩ := List.mem_map.mp hgp2
    simpa [convPars] using hdet o ho q hq
  refine ⟨?_, ?_, ?_, ?_⟩
  · rw [convolve, convolveFill]
    rw [gauss2dSetLoop_all_pos (convolveParams obj psf)
      (List.replicate (obj.length * psf.length) zeroGauss) 0 hitems
      (by simp [convolveParams_length])]
    simp [convolveParams_length]
  · rw [List.length_map, convolveParams_length]
  · intro i j hi hj
    rw [List.getElem?_map, convolveParams_eq,
      getElem?_flatMap_pair
        (fun o q => convPars o q (gmixRowsum psf / gmixPsum psf)
          (gmixColsum psf / gmixPsum psf) (1 / gmixPsum psf)) psf obj i j hi hj]
    rfl
  · intro _
    rw [getCen, getCen, convolved_psum obj psf hQ, convolved_rowsum obj psf hQ,
      convolved_colsum obj psf hQ]

/-- A concrete positive-definite one-component mixture (the unit Gaussian)
used to witness the convolution theorem. -/
noncomputable def unitMix : List Gauss2D := [mkGauss { p := 1, row := 0, col := 0, irr := 1, irc := 0, icc := 1 }]

/-- Witness for C2: convolving the unit-Gaussian mixture with itself
satisfies both hypotheses and the full conclusion. -/
theorem convolve_pairwise_spec_witness :
    (∀ o ∈ unitMix, ∀ q ∈ unitMix,
      0 < (o.irr + q.irr) * (o.icc + q.icc) - (o.irc + q.irc) * (o.irc + q.irc))
    ∧ gmixPsum unitMix ≠ 0
    ∧ (convolve unitMix unitMix = Except.ok ((convolveParams unitMix unitMix).map mkGauss)
      ∧ ((convolveParams unitMix unitMix).map mkGauss).length = unitMix.length * unitMix.length
      ∧ (∀ i j (hi : i < unitMix.length) (hj : j < unitMix.length),
          ((convolveParams unitMix unitMix).map mkGauss)[i * unitMix.length + j]? = some (mkGauss
            { p := unitMix[i].p * unitMix[j].p * (1 / gmixPsum unitMix),
              row := unitMix[i].row + (unitMix[j].row - gmixRowsum unitMix / gmixPsum unitMix),
              col := unitMix[i].col + (unitMix[j].col - gmixColsum unitMix / gmixPsum unitMix),
              irr := unitMix[i].irr + unitMix[j].irr,
              irc := unitMix[i].irc + unitMix[j].irc,
              icc := unitMix[i].icc + unitMix[j].icc }))
      ∧ (getCen unitMix = (0, 0) →
          getCen ((convolveParams unitMix unitMix).map mkGauss) = getCen unitMix)) := by
  have hdet : ∀ o ∈ unitMix, ∀ q ∈ unitMix,
      0 < (o.irr + q.irr) * (o.icc + q.icc) - (o.irc + q.irc) * (o.irc + q.irc) := by
    intro o ho q hq
    simp only [unitMix, List.mem_singleton] at ho hq
    subst ho
    subst hq
    norm_num
  have hQ : gmixPsum unitMix ≠ 0 := by
    simp [gmixPsum, unitMix]
  exact ⟨hdet, hQ, convolve_pairwise_spec unitMix unitMix hdet hQ⟩

/-- A mixture that satisfies the per-component validity invariant det > 0
while having negative irr and icc (det = (-1)*(-1) - 0 = 1 > 0). -/
noncomputable def negMomMix : List Gauss2D :=
  [mkGauss { p := 1, row := 0, col := 0, irr := -1, irc := 0, icc := -1 }]

/-- The unit-Gaussian one-component mixture paired with negMomMix in the
counterexample. -/
noncomputable def unitPsfMix : List Gauss2D :=
  [mkGauss { p := 1, row := 0, col := 0, irr := 1, irc := 0, icc := 1 }]

/-- C2 counterexample: both mixtures are constructible through the public
GMix(pars=...) API (so both are valid: every component passes det > 0), yet
convolve raises a range error instead of returning a len*len-component
mixture, because the pairwise moment sums give det = 0*0 - 0*0 = 0. -/
theorem convolve_valid_counterexample :
    gmixOfPars [1, 0, 0, -1, 0, -1] = Except.ok (none, negMomMix)
    ∧ gmixOfPars [1, 0, 0, 1, 0, 1] = Except.ok (none, unitPsfMix)
    ∧ (∀ x ∈ negMomMix, 0 < x.det)
    ∧ (∀ x ∈ unitPsfMix, 0 < x.det)
    ∧ convolve negMomMix unitPsfMix = Except.error RangeErr.rangeError := by
  refine ⟨?_, ?_, ?_, ?_, ?_⟩
  · rw [gmixOfPars, if_neg (by norm_num)]
    rw [show chunk6 [(1 : ℝ), 0, 0, -1, 0, -1] =
      [{ p := 1, row := 0, col := 0, irr := -1, irc := 0, icc := -1 }] from rfl]
    rw [show List.replicate ([(1 : ℝ), 0, 0, -1, 0, -1].length / 6) zeroGauss
      = [zeroGauss] from rfl]
    rw [gauss2dSetLoop, gauss2dSet_pos _ _ _ (by norm_num)]
    rfl
  · rw [gmixOfPars, if_neg (by norm_num)]
    rw [show chunk6 [(1 : ℝ), 0, 0, 1, 0, 1] =
      [{ p := 1, row := 0, col := 0, irr := 1, irc := 0, icc := 1 }] from rfl]
    rw [show List.replicate ([(1 : ℝ), 0, 0, 1, 0, 1].length / 6) zeroGauss
      = [zeroGauss] from rfl]
    rw [gauss2dSetLoop, gauss2dSet_pos _ _ _ (by norm_num)]
    rfl
  · intro x hx
    simp only [negMomMix, List.mem_singleton] at hx
    subst hx
    norm_num
  · intro x hx
    simp only [unitPsfMix, List.mem_singleton] at hx
    subst hx
    norm_num
  · rw [convolve, convolveFill]
    have hparams : convolveParams negMomMix unitPsfMix =
        [convPars (mkGauss { p := 1, row := 0, col := 0, irr := -1, irc := 0, icc := -1 })
          (mkGauss { p := 1, row := 0, col := 0, irr := 1, irc := 0, icc := 1 })
          (gmixRowsum unitPsfMix / gmixPsum unitPsfMix)
          (gmixColsum unitPsfMix / gmixPsum unitPsfMix)
          (1 / gmixPsum unitPsfMix)] := by
      rw [convolveParams_eq]
      rfl
    rw [hparams, gauss2dSetLoop, gauss2dSet_nonpos _ _ _ (by simp [convPars])]
